import Mathlib

/-!
# Verification of the Koove analysis-report extraction engine

Shallow embedding of `src/koove_app.py`: the cell-location and extraction
engine that turns loosely structured spreadsheet grids into a fixed report
table.  Spreadsheet cells are modelled by an explicit scalar type, grids by
lists of rows, pandas DataFrame accumulator rows by a record keyed on the
serial number, and each `process_*` function of the source by a Lean
function of the same name.  Streamlit warnings are modelled as a returned
list of message strings; an uncaught Python exception is modelled by
`Except.error`.
-/

namespace Koove

/-- A spreadsheet cell value: text, number, a datetime (day index plus a
time-of-day in seconds, as carried by a pandas Timestamp), or empty (NaN). -/
inductive Cell where
  | str (v : String)
  | num (v : ℚ)
  | dt (day : Int) (tod : Int)
  | empty
deriving DecidableEq, Repr

/-- A pandas timestamp as produced by `pd.to_datetime`: a calendar day and a
time-of-day component.  `pd.to_datetime(date)` yields midnight, i.e. `tod = 0`;
equality of timestamps compares both components, while `.date()` keeps only
`day`. -/
structure DT where
  day : Int
  tod : Int
deriving DecidableEq, Repr

/-- Python `str(x)` on a cell value.  `str` of a NaN cell is `"nan"`; numbers
and timestamps stringify to digit strings that never contain the keyword
letters the scanners look for. -/
def cellStr : Cell → String
  | .str v => v
  | .num v => toString v
  | .dt d t => toString d ++ "T" ++ toString t
  | .empty => "nan"

/-- ASCII lower-casing of one character (`str.lower()` on the texts used
here). -/
def lowerChar (c : Char) : Char :=
  if 'A' ≤ c ∧ c ≤ 'Z' then Char.ofNat (c.toNat + 32) else c

/-- ASCII upper-casing of one character (`str.upper()`). -/
def upperChar (c : Char) : Char :=
  if 'a' ≤ c ∧ c ≤ 'z' then Char.ofNat (c.toNat - 32) else c

/-- Python `str.upper()` on the texts used here. -/
def strUpper (s : String) : String :=
  String.mk (s.data.map upperChar)

/-- Whether a character list starts with the given pattern. -/
def charsBeginWith : List Char → List Char → Bool
  | _, [] => true
  | [], _ :: _ => false
  | a :: as, b :: bs => a == b && charsBeginWith as bs

/-- Whether a character list contains the given pattern as a contiguous
run. -/
def charsContain (l needle : List Char) : Bool :=
  match l with
  | [] => needle.isEmpty
  | _ :: rest => charsBeginWith l needle || charsContain rest needle

/-- Python `kw in hay.lower()` for a keyword `kw` given already in lowercase:
case-insensitive substring containment. -/
def containsKw (hay kw : String) : Bool :=
  charsContain (hay.data.map lowerChar) kw.data

/-- A sheet read with `header=None`: a 2-D grid of cells, as a list of rows. -/
abbrev Grid := List (List Cell)

/-- Read `df.iloc[r, c]` as an `Option`: `none` when the position is outside the
grid. -/
def cellAt (g : Grid) (r c : Nat) : Option Cell :=
  (g.get? r).bind fun row => row.get? c

/-- Read `df.iloc[r, c]` on a rectangular DataFrame, where a position inside the
frame but absent from the ragged list model reads as NaN. -/
def cellAtD (g : Grid) (r c : Nat) : Cell :=
  (cellAt g r c).getD Cell.empty

/-- The width of the DataFrame built from the grid: `read_excel` pads every
row to the widest one, so the frame has `max` of the row lengths columns. -/
def ncols (g : Grid) : Nat :=
  g.foldr (fun row m => max row.length m) 0

/-- Read `df.iloc[r, c]` as the fallible operation it is: inside the
rectangular frame the value (NaN where the ragged model has no cell), and an
uncaught `IndexError` beyond the frame's bounds. -/
def ilocE (g : Grid) (r c : Nat) : Except String Cell :=
  if r < g.length ∧ c < ncols g then .ok (cellAtD g r c)
  else .error "IndexError: single positional indexer is out-of-bounds"

/-- Model of `pd.to_datetime(x, errors="coerce")` applied to one cell: only
datetime-valued cells parse; everything else coerces to NaT (`none`). -/
def cellToDT : Cell → Option DT
  | .dt d t => some ⟨d, t⟩
  | _ => none

/-! ## Row-major cell scanning

`df.applymap(pred)` followed by `.stack()` and `match[match].index[0]` yields
the coordinates of the first matching cell in row-major order. -/

/-- Index of the first element of a list satisfying `p`. -/
def findIdxO {α : Type} (p : α → Bool) : List α → Option Nat
  | [] => none
  | x :: xs => if p x then some 0 else (findIdxO p xs).map (· + 1)

/-- First cell of the grid satisfying `p`, scanning rows top to bottom and
each row left to right; `none` if no cell matches. -/
def findCellRM (g : Grid) (p : Cell → Bool) : Option (Nat × Nat) :=
  match g with
  | [] => none
  | row :: rest =>
    match findIdxO p row with
    | some c => some (0, c)
    | none => (findCellRM rest p).map fun rc => (rc.1 + 1, rc.2)

/-- The date-column locator of `process_consumption` (lines 88–94): scan all
cells row-major, parse each as a datetime, compare **date-only** (`.date()`)
equality with the target, and return the column index of the first hit. -/
def dateColIdx (g : Grid) (target : DT) : Option Nat :=
  (findCellRM g fun cell =>
    match cellToDT cell with
    | some d => d.day == target.day
    | none => false).map Prod.snd

/-! ## Numeric formatting

Executable models of the Python format specifiers used by the source:
`:,.0f`, `:.0f`, `:.1f` and `:,.2f`.  Python rounds ties to even. -/

/-- Round a rational to the nearest integer, ties to even (Python `round` /
format rounding).  `f` is the floor of `q`; the fractional part
`(num - f*den)/den` is compared with one half by cross-multiplying. -/
def roundHE (q : ℚ) : Int :=
  let f := Int.ediv q.num (q.den : Int)
  let twice : Int := 2 * q.num - 2 * f * (q.den : Int)
  if twice < (q.den : Int) then f
  else if (q.den : Int) < twice then f + 1
  else if f % 2 = 0 then f else f + 1

/-- Insert a comma after every three characters of a reversed digit list. -/
def groupIn3 : List Char → List Char
  | a :: b :: c :: d :: rest => a :: b :: c :: ',' :: groupIn3 (d :: rest)
  | l => l

/-- Decimal digits of a natural number with thousands separators. -/
def natCommaStr (n : Nat) : String :=
  String.mk ((groupIn3 (toString n).data.reverse).reverse)

/-- Signed decimal digits with thousands separators. -/
def intCommaStr (i : Int) : String :=
  (if i < 0 then "-" else "") ++ natCommaStr i.natAbs

/-- Python `f"{q:,.0f}"` for a numeric value. -/
def fmtComma0 (q : ℚ) : String := intCommaStr (roundHE q)

/-- Python `f"{q:.0f}"` for a numeric value. -/
def fmtF0 (q : ℚ) : String :=
  (if roundHE q < 0 then "-" else "") ++ toString (roundHE q).natAbs

/-- Python `f"{q:.1f}"` for a numeric value. -/
def fmtF1 (q : ℚ) : String :=
  let r := roundHE (q * 10)
  (if r < 0 then "-" else "") ++ toString (r.natAbs / 10) ++ "." ++ toString (r.natAbs % 10)

/-- Two decimal digits, left-padded with a zero. -/
def pad2 (n : Nat) : String :=
  if n < 10 then "0" ++ toString n else toString n

/-- Python `f"{q:,.2f}"` for a numeric value. -/
def fmtComma2 (q : ℚ) : String :=
  let r := roundHE (q * 100)
  (if r < 0 then "-" else "") ++ natCommaStr (r.natAbs / 100) ++ "." ++ pad2 (r.natAbs % 100)

/-- A cell under the `:,.0f` spec.  Only numeric cells occur at the formatted
positions in practice; a NaN formats to `"nan"` as in Python, and the
remaining cases fall back to `str` (where Python would raise). -/
def fmtCell0 : Cell → String
  | .num q => fmtComma0 q
  | c => cellStr c

/-- A cell under the `:.1f` spec, with the same conventions as `fmtCell0`. -/
def fmtCell1 : Cell → String
  | .num q => fmtF1 q
  | c => cellStr c

/-- A cell under the `:,.0f` spec as the fallible operation it is: numbers
format, NaN formats to `"nan"`, and a text or timestamp value makes the
Python f-string raise (`ValueError` / `TypeError`), modelled as
`Except.error`. -/
def fmtCell0E : Cell → Except String String
  | .num q => .ok (fmtComma0 q)
  | .empty => .ok "nan"
  | .str _ => .error "ValueError: unknown format code f for object of type str"
  | .dt _ _ => .error "TypeError: unsupported format string passed to Timestamp"

/-- A cell under the `:,.2f` spec as the fallible operation it is, with the
same error behavior as `fmtCell0E`. -/
def fmtCell2E : Cell → Except String String
  | .num q => .ok (fmtComma2 q)
  | .empty => .ok "nan"
  | .str _ => .error "ValueError: unknown format code f for object of type str"
  | .dt _ _ => .error "TypeError: unsupported format string passed to Timestamp"

/-! ## The report accumulator

`analysis_df`: a table of rows keyed by `Sl. No.`, with columns Particulars,
Unit, Standard, Actual and Remark. -/

/-- One report row. -/
structure Row where
  sno : Nat
  particulars : String
  unitName : String
  standard : String
  actual : String
  remark : String
deriving DecidableEq, Repr

/-- Column selector for a report row. -/
inductive Field where
  | particulars | unitName | standard | actual | remark
deriving DecidableEq, Repr

def Row.getField (row : Row) : Field → String
  | .particulars => row.particulars
  | .unitName => row.unitName
  | .standard => row.standard
  | .actual => row.actual
  | .remark => row.remark

def Row.setFieldV (row : Row) : Field → String → Row
  | .particulars, v => { row with particulars := v }
  | .unitName, v => { row with unitName := v }
  | .standard, v => { row with standard := v }
  | .actual, v => { row with actual := v }
  | .remark, v => { row with remark := v }

/-- The accumulator: the report rows in insertion order. -/
abbrev Acc := List Row

/-- Write `analysis_df.loc[sno, field] = v`: update the row with the given serial
number (every write in the source targets a serial present in the table). -/
def setLoc (acc : Acc) (sno : Nat) (f : Field) (v : String) : Acc :=
  acc.map fun row => if row.sno = sno then row.setFieldV f v else row

/-- Read `analysis_df.loc[sno, field]`: a cell of the accumulator, `""` when
the serial is absent. -/
def getLoc (acc : Acc) (sno : Nat) (f : Field) : String :=
  ((acc.find? fun row => row.sno == sno).map fun row => row.getField f).getD ""

/-- The serial-number column of the accumulator. -/
def accKeys (acc : Acc) : List Nat := acc.map Row.sno

/-- The pre-seeded report structure of `create_report` (line 209): rows
1–15, 17 and 18 with fixed Particulars/Unit/Standard and empty
Actual/Remark. -/
def seed_rows : Acc :=
  [ ⟨1, "LINE 1 Working Hrs.", "Hrs", "22 Hrs", "", ""⟩,
    ⟨2, "LINE 1 Production Capacity", "Pcs/hrs", "18181 Pcs/hrs", "", ""⟩,
    ⟨3, "LINE 1 Quality", "%", "100 %", "", ""⟩,
    ⟨4, "LINE 1 OEE", "%", "80 %", "", ""⟩,
    ⟨5, "LINE 2 Working Hrs.", "Hrs", "22 Hrs", "", ""⟩,
    ⟨6, "LINE 2 Production Capacity", "Pcs/hrs", "22727 Pcs/hrs", "", ""⟩,
    ⟨7, "LINE 2 Quality", "%", "100 %", "", ""⟩,
    ⟨8, "LINE 2 OEE", "%", "80 %", "", ""⟩,
    ⟨9, "LINE 3 Working Hrs.", "Hrs", "22 Hrs", "", ""⟩,
    ⟨10, "LINE 3 Production Capacity", "Pcs/hrs", "22727 Pcs/hrs", "", ""⟩,
    ⟨11, "LINE 3 Quality", "%", "100 %", "", ""⟩,
    ⟨12, "LINE 3 OEE", "%", "80 %", "", ""⟩,
    ⟨13, "ABNORMALITIES (1+2+3)", "Nos", "0 Nos", "", ""⟩,
    ⟨14, "PRODUCTION TARGET (Qty/day)", "Pcs", "", "", ""⟩,
    ⟨15, "PRODUCTION TARGET (in %)", "%", "", "", ""⟩,
    ⟨17, "COAL CONSUMPTION PER DAY", "Kg", "", "", ""⟩,
    ⟨18, "ELECTRICITY CONSUMPTION PER DAY", "Unit", "", "", ""⟩ ]

/-! ## OEE / line-performance extractor (`process_oee_data`, lines 18–47) -/

/-- One row of the OEE sheet after the pre-processing of `create_report`
(lines 203–206): `Date` parsed to a timestamp, rows with unparseable dates
dropped, remaining NaNs filled with 0, so the numeric columns are plain
rationals. -/
structure OeeRow where
  date : DT
  line : String
  runTime : ℚ
  totalPcs : ℚ
  quality : ℚ
  oee : ℚ
  downtime : ℚ
deriving DecidableEq, Repr

/-- The production-capacity computation of line 36:
`(total_pcs / run_time) if run_time > 0 else 0`. -/
def prodCapacity (totalPcs runTime : ℚ) : ℚ :=
  if 0 < runTime then totalPcs / runTime else 0

/-- The working-hours remark of lines 33–34: base text, plus a downtime
clause only when `run_time < 22` and `downtime > 0`. -/
def hrsRemark (runTime downtime : ℚ) : String :=
  "Operation time " ++ fmtF0 runTime ++ " hrs." ++
    (if runTime < 22 ∧ 0 < downtime then
      " " ++ fmtF1 downtime ++ " hrs downtime." else "")

/-- The guard of line 30: `not line_data.empty and line_data.iloc[0]['OEE'] > 0`. -/
def lineOk (lineData : List OeeRow) : Bool :=
  match lineData with
  | [] => false
  | first :: _ => decide (0 < first.oee)

/-- One iteration of the loop of lines 25–46, for line `i ∈ {1, 2, 3}`:
serials `4i-3 .. 4i` receive either the computed metrics or the
`Shutdown` sentinel. -/
def oeeLine (daily : List OeeRow) (i : Nat) (acc : Acc) : Acc :=
  let lineData := daily.filter fun row => row.line == "Line " ++ toString i
  let hrs := 4 * i - 3
  let cap := 4 * i - 2
  let qual := 4 * i - 1
  let oeeS := 4 * i
  match lineData with
  | first :: _ =>
    if 0 < first.oee then
      let pc := prodCapacity first.totalPcs first.runTime
      let acc := setLoc acc hrs .actual (fmtF0 first.runTime ++ " Hrs")
      let acc := setLoc acc hrs .remark (hrsRemark first.runTime first.downtime)
      let acc := setLoc acc cap .actual (fmtComma0 pc ++ " Pcs/hrs")
      let acc := setLoc acc cap .remark ("Actual Production rate " ++ fmtComma0 pc ++ " pcs/hr.")
      let acc := setLoc acc qual .actual (fmtF0 (first.quality * 100) ++ " %")
      let acc := setLoc acc qual .remark ("Quality is " ++ fmtF0 (first.quality * 100) ++ "%.")
      let acc := setLoc acc oeeS .actual (fmtF0 (first.oee * 100) ++ " %")
      setLoc acc oeeS .remark ("OEE is " ++ fmtF0 (first.oee * 100) ++ "%.")
    else
      let acc := setLoc acc hrs .actual "Shutdown"
      let acc := setLoc acc cap .actual "Shutdown"
      let acc := setLoc acc qual .actual "Shutdown"
      let acc := setLoc acc oeeS .actual "Shutdown"
      setLoc acc hrs .remark "Line was Shutdown for the day."
  | [] =>
      let acc := setLoc acc hrs .actual "Shutdown"
      let acc := setLoc acc cap .actual "Shutdown"
      let acc := setLoc acc qual .actual "Shutdown"
      let acc := setLoc acc oeeS .actual "Shutdown"
      setLoc acc hrs .remark "Line was Shutdown for the day."

/-- The extractor `process_oee_data`: filter the OEE sheet to the rows whose parsed `Date`
timestamp equals the target exactly (line 20); if none match, warn once and
return the accumulator unchanged (lines 21–23); otherwise process the three
lines. -/
def process_oee_data (oee_df : List OeeRow) (target : DT) (acc : Acc) :
    Acc × List String :=
  let daily := oee_df.filter fun row => row.date == target
  if daily.isEmpty then
    (acc, ["No OEE data found for the target date."])
  else
    (oeeLine daily 3 (oeeLine daily 2 (oeeLine daily 1 acc)), [])

/-! ## Production-target extractor (`process_production_target`, lines 49–79) -/

def wProdSheetMissing : String :=
  "Gloves Production sheet not found for production target processing."
def wTargetKwMissing : String :=
  "Target MTD keyword not found in Gloves Production sheet."
def wTargetOutOfRange : String :=
  "Could not find production target values in the expected cells."

/-- The extractor `process_production_target`: scan the whole grid row-major for a cell
containing `"target mtd"` (lines 56–62; the `applymap` runs over every row of
the frame); on a hit at `(x, y)` read the three cells at column `y+1` and
rows `x, x+1, x+2`, and populate serials 14 and 15; an out-of-bounds read
(`IndexError`) is caught and reported as a warning. -/
def process_production_target (prod_df : Option Grid) (acc : Acc) :
    Acc × List String :=
  match prod_df with
  | none => (acc, [wProdSheetMissing])
  | some g =>
    match findCellRM g (fun c => containsKw (cellStr c) "target mtd") with
    | none => (acc, [wTargetKwMissing])
    | some (x, y) =>
      match cellAt g x (y + 1), cellAt g (x + 1) (y + 1), cellAt g (x + 2) (y + 1) with
      | some tq, some aq, some ap =>
        let acc := setLoc acc 14 .standard (fmtCell0 tq ++ " Pcs")
        let acc := setLoc acc 14 .actual (fmtCell0 aq ++ " Pcs")
        let acc := setLoc acc 14 .remark ("Actual production is " ++ fmtCell0 aq ++ " pcs.")
        let acc := setLoc acc 15 .standard "100 %"
        let acc := setLoc acc 15 .actual (fmtCell1 ap ++ " %")
        (setLoc acc 15 .remark ("Achievement is " ++ fmtCell1 ap ++ "%."), [])
      | _, _, _ => (acc, [wTargetOutOfRange])

/-! ## Consumption extractor (`process_consumption`, lines 81–108) -/

def wConsumpSheetMissing : String :=
  "coal and elec sheet not found for consumption processing."
def wConsumpDateMissing : String :=
  "No consumption data found for the target date."

/-- Model of `first_col.str.lower().str.contains(kw, na=False)` on one cell: only
text cells can match, everything else is NaN and counts as no match. -/
def colKw (kw : String) : Cell → Bool
  | .str s => containsKw s kw
  | _ => false

/-- Column 0 of the grid, NaN-padded (`consump_df.iloc[:, 0]`). -/
def firstColumn (g : Grid) : List Cell :=
  g.map fun row => (row.get? 0).getD Cell.empty

/-- The row chosen for the coal value: `coal_row_index[0]`, the first index
of column 0 whose text contains `"coal"`. -/
def coalRowIdx (g : Grid) : Option Nat :=
  findIdxO (colKw "coal") (firstColumn g)

/-- The row chosen for the electricity value: the first index of column 0
whose text contains `"electri"`. -/
def elecRowIdx (g : Grid) : Option Nat :=
  findIdxO (colKw "electri") (firstColumn g)

/-- The extractor `process_consumption`: locate the date column by date-only equality, then
independently locate the coal row and the electricity row in column 0 and
populate serials 17 and 18 from the date column. -/
def process_consumption (consump_df : Option Grid) (target : DT) (acc : Acc) :
    Acc × List String :=
  match consump_df with
  | none => (acc, [wConsumpSheetMissing])
  | some g =>
    match dateColIdx g target with
    | none => (acc, [wConsumpDateMissing])
    | some dateCol =>
      let acc1 :=
        match coalRowIdx g with
        | some i =>
          let v := cellAtD g i dateCol
          setLoc (setLoc acc 17 .actual (fmtCell0 v ++ " Kg"))
            17 .remark ("Coal consumption is " ++ fmtCell0 v ++ " Kg.")
        | none => acc
      let acc2 :=
        match elecRowIdx g with
        | some i =>
          let v := cellAtD g i dateCol
          setLoc (setLoc acc1 18 .actual (fmtCell0 v ++ " Unit"))
            18 .remark ("Electricity consumption is " ++ fmtCell0 v ++ " unit.")
        | none => acc1
      (acc2, [])

/-! ## Abnormalities stub (`process_abnormalities`, lines 110–113) -/

/-- Constant placeholder: always writes the fixed text into serial 13. -/
def process_abnormalities (acc : Acc) : Acc :=
  setLoc (setLoc acc 13 .actual "13 Nos")
    13 .remark "13 nos. of Abnormalities are found."

/-! ## Inventory extractor (`process_inventory`, lines 115–151) -/

def wInvSheetMissing : String :=
  "Gloves Production sheet not found for inventory check."
def wInvAnchorMissing : String :=
  "XNBR LATEX keyword not found for inventory check."

/-- Truncation toward zero, `int(q)` on a Python float. -/
def ratTrunc (q : ℚ) : Int :=
  Int.tdiv q.num (q.den : Int)

/-- Digits of a decimal literal, `none` on empty or non-digit input. -/
def digitsToNat? (l : List Char) : Option Nat :=
  match l with
  | [] => none
  | _ =>
    if l.all Char.isDigit then
      some (l.foldl (fun acc c => 10 * acc + (c.toNat - '0'.toNat)) 0)
    else none

/-- Python `int(float(s))` for an integer-literal string, `none` where Python's
`float` would raise `ValueError`. -/
def strToInt? (s : String) : Option Int :=
  match s.data with
  | '-' :: rest => (digitsToNat? rest).map fun n => -(n : Int)
  | l => (digitsToNat? l).map fun n => (n : Int)

/-- Python `int(float(x))` on a cell, `none` where Python would raise `ValueError`
or `TypeError` (NaN, a non-numeric string, a timestamp). -/
def cellToIntTrunc : Cell → Option Int
  | .num q => some (ratTrunc q)
  | .str s => strToInt? s
  | _ => none

/-- The stock remark of lines 136–143: days of stock if numeric, else the
raw text; for an `xnbr latex` particulars row, append the in-transit note
when the cell at `col+3` is present and not NaN (an out-of-bounds read there
is silently tolerated, like the NaN case). -/
def invRemark (g : Grid) (r c : Nat) (particular daysVal : Cell) : String :=
  let base :=
    match cellToIntTrunc daysVal with
    | some n => "Stock available for " ++ toString n ++ " days."
    | none => cellStr daysVal
  if containsKw (cellStr particular) "xnbr latex" then
    match cellAt g r (c + 3) with
    | some Cell.empty => base
    | some t => base ++ " " ++ cellStr t ++ " In transit."
    | none => base
  else base

/-- One iteration's reads and row build (lines 135–145): the actual and
days-of-stock reads at `col+1` and `col+2` are plain `iloc` calls outside
any `try`, so they raise an uncaught `IndexError` when the anchor sits in
the frame's last two columns; the `:,.0f` format of the actual value at the
append (line 145) raises on a non-numeric cell.  Only the particulars read
at the anchor column itself is always in bounds (the anchor cell was found
there). -/
def mkInvRow (g : Grid) (r c sno : Nat) : Except String Row :=
  match ilocE g r (c + 1) with
  | .error e => .error e
  | .ok actualVal =>
    match ilocE g r (c + 2) with
    | .error e => .error e
    | .ok daysVal =>
      match fmtCell0E actualVal with
      | .error e => .error e
      | .ok actualStr =>
        .ok ⟨sno, strUpper (cellStr (cellAtD g r c)), "Kg", "",
          actualStr ++ " Kg", invRemark g r c (cellAtD g r c) daysVal⟩

/-- The stopping test of line 133: `pd.isna(particular) or particular == ""`. -/
def isStopB (cl : Cell) : Bool :=
  cl == Cell.empty || cl == Cell.str ""

/-- The walk of lines 131–146: starting at row `r`, emit one row per grid
row, stopping (without emitting) at the first row whose particulars cell at
the anchor column is NaN or the empty string; `fuel` is the number of grid
rows left (`len(prod_df) - r`).  An `IndexError` or format error inside one
iteration is uncaught and aborts the whole walk with nothing emitted. -/
def inv_walk (g : Grid) (c r fuel sno : Nat) : Except String (List Row) :=
  match fuel with
  | 0 => .ok []
  | Nat.succ fuel =>
    if isStopB (cellAtD g r c) then .ok []
    else
      match mkInvRow g r c sno with
      | .error e => .error e
      | .ok row =>
        match inv_walk g c (r + 1) fuel (sno + 1) with
        | .error e => .error e
        | .ok rest => .ok (row :: rest)

/-- The rows appended when the inventory extractor returns normally: empty
when the sheet or the `"xnbr latex"` anchor is absent or when the walk
raises, otherwise the walk from the anchor with serials starting at 19. -/
def inventory_rows (prod_df : Option Grid) : List Row :=
  match prod_df with
  | none => []
  | some g =>
    match findCellRM g (fun c => containsKw (cellStr c) "xnbr latex") with
    | none => []
    | some (r, c) =>
      match inv_walk g c r (g.length - r) 19 with
      | .ok rows => rows
      | .error _ => []

/-- The extractor `process_inventory`: find the `"xnbr latex"` anchor by a
full-grid row-major scan and append the walked rows to the accumulator; an
uncaught exception inside the walk escapes the extractor. -/
def process_inventory (prod_df : Option Grid) (acc : Acc) :
    Except String (Acc × List String) :=
  match prod_df with
  | none => .ok (acc, [wInvSheetMissing])
  | some g =>
    match findCellRM g (fun c => containsKw (cellStr c) "xnbr latex") with
    | none => .ok (acc, [wInvAnchorMissing])
    | some (r, c) =>
      match inv_walk g c r (g.length - r) 19 with
      | .error e => .error e
      | .ok rows => .ok (acc ++ rows, [])

/-! ## Order-financials extractor (`process_order_details`, lines 153–180) -/

def wOrderSheetMissing : String :=
  "Clear order details sheet not found."

/-- A sheet read with a header row: column labels plus data rows. -/
structure OrderTable where
  headers : List String
  rows : List (List Cell)
deriving Repr

/-- Python `next((col for col in order_df.columns if kw in str(col).lower()), None)`:
index of the first header containing the keyword case-insensitively. -/
def resolveCol (t : OrderTable) (kw : String) : Option Nat :=
  findIdxO (fun h => containsKw h kw) t.headers

/-- The row built for one resolved financial column: the
`f"Rs. {val:,.2f}"` formats (lines 169/172/175) are not inside any `try`,
so a string or timestamp cell raises an uncaught exception. -/
def mkFinRow (sno : Nat) (particulars remarkText : String) (v : Cell) :
    Except String Row :=
  match fmtCell2E v with
  | .ok s2 => .ok ⟨sno, particulars, "Rs.", "", "Rs. " ++ s2,
      remarkText ++ " is Rs. " ++ s2⟩
  | .error e => .error e

/-- One `if col:` block of lines 167–175: no row when the column is
unresolved, one fixed-serial row when it resolves and the value formats, and
the uncaught format exception otherwise. -/
def finRowsFor (lastRow : List Cell) (o : Option Nat) (sno : Nat)
    (particulars remarkText : String) : Except String (List Row) :=
  match o with
  | none => .ok []
  | some j =>
    match mkFinRow sno particulars remarkText (lastRow.getD j Cell.empty) with
    | .ok row => .ok [row]
    | .error e => .error e

/-- The extractor `process_order_details`: take the last data row (`order_df.iloc[-1]`,
which raises `IndexError` on a header-only table — modelled as
`Except.error`), resolve the three financial columns by case-insensitive
substring match over the headers, and append one fixed-serial row per
resolved column; an unresolved column is silently skipped, while a resolved
cell that the currency format rejects raises uncaught. -/
def process_order_details (order_df : Option OrderTable) (acc : Acc) :
    Except String (Acc × List String) :=
  match order_df with
  | none => .ok (acc, [wOrderSheetMissing])
  | some t =>
    match t.rows.getLast? with
    | none => .error "IndexError: single positional indexer is out-of-bounds"
    | some lastRow =>
      match finRowsFor lastRow (resolveCol t "total payment receive") 24
          "CLEAR ORDER VALUE" "Total Clear Order value" with
      | .error e => .error e
      | .ok rows1 =>
        match finRowsFor lastRow (resolveCol t "total dispatch price") 25
            "TOTAL DISPATCH VALUE" "Total dispatch value" with
        | .error e => .error e
        | .ok rows2 =>
          match finRowsFor lastRow (resolveCol t "advance payment") 26
              "PENDING" "Pending quantity value" with
          | .error e => .error e
          | .ok rows3 => .ok (acc ++ rows1 ++ rows2 ++ rows3, [])

/-- The one fixed serial contributed by a column lookup: present exactly
when the column resolved. -/
def optKey (o : Option Nat) (sno : Nat) : List Nat :=
  match o with
  | some _ => [sno]
  | none => []

/-- The serial numbers emitted by the order-financials extractor: one fixed
id per resolved column. -/
def order_keys (t : OrderTable) : List Nat :=
  optKey (resolveCol t "total payment receive") 24 ++
  optKey (resolveCol t "total dispatch price") 25 ++
  optKey (resolveCol t "advance payment") 26

/-! ## Report assembly (`create_report`, lines 184–220) -/

/-- Insert a row into a list sorted by serial number. -/
def insertBySno (x : Row) : List Row → List Row
  | [] => [x]
  | y :: ys => if x.sno ≤ y.sno then x :: y :: ys else y :: insertBySno x ys

/-- Sorting `analysis_df.sort_index()`: sort the accumulator by serial number. -/
def sortBySno : List Row → List Row
  | [] => []
  | x :: xs => insertBySno x (sortBySno xs)

/-- The assembler `create_report` after the sheets have been read and the OEE dates
pre-processed: run the six extractors in the fixed order of lines 213–218
over the freshly seeded accumulator, then sort by serial number.  An
uncaught exception of the inventory or order extractor propagates to the
per-file boundary. -/
def create_report (oee_df : List OeeRow) (prod_df consump_df : Option Grid)
    (order_df : Option OrderTable) (target : DT) : Except String (List Row) :=
  let a1 := (process_oee_data oee_df target seed_rows).1
  let a2 := process_abnormalities a1
  let a3 := (process_production_target prod_df a2).1
  let a4 := (process_consumption consump_df target a3).1
  match process_inventory prod_df a4 with
  | .error e => .error e
  | .ok (a5, _) =>
    match process_order_details order_df a5 with
    | .error e => .error e
    | .ok (a6, _) => .ok (sortBySno a6)

/-! ## Concrete inputs used by the counterexamples and witnesses -/

/-- A consumption grid whose first column has two `coal` rows (indices 1 and
2, values 5 and 7) and one `electri` row, with the date column at index 1. -/
def gConsump : Grid :=
  [ [Cell.str "Particulars", Cell.dt 100 0],
    [Cell.str "Coal A", Cell.num 5],
    [Cell.str "Coal B", Cell.num 7],
    [Cell.str "Electricity", Cell.num 11] ]

/-- A production grid whose only `target mtd` cell sits at row index 10. -/
def gTarget10 : Grid :=
  (List.replicate 10 [Cell.str "filler", Cell.empty]) ++
  [ [Cell.str "Target MTD", Cell.num 1000],
    [Cell.str "actual", Cell.num 900],
    [Cell.str "pct", Cell.num 90] ]

/-- A production grid whose inventory walk emits six rows (serials 19–24). -/
def gInv6 : Grid :=
  [ [Cell.str "header", Cell.empty, Cell.empty],
    [Cell.str "XNBR Latex", Cell.num 100, Cell.num 3, Cell.num 50],
    [Cell.str "Chem B", Cell.num 200, Cell.num 4],
    [Cell.str "Chem C", Cell.num 300, Cell.num 5],
    [Cell.str "Chem D", Cell.num 400, Cell.num 6],
    [Cell.str "Chem E", Cell.num 500, Cell.num 7],
    [Cell.str "Chem F", Cell.num 600, Cell.num 8],
    [Cell.empty, Cell.empty, Cell.empty] ]

/-- A production grid whose inventory walk emits two rows (serials 19, 20). -/
def gInv2 : Grid :=
  [ [Cell.str "header", Cell.empty, Cell.empty],
    [Cell.str "XNBR Latex", Cell.num 100, Cell.num 3],
    [Cell.str "Chem B", Cell.num 200, Cell.num 4],
    [Cell.empty, Cell.empty, Cell.empty] ]

/-- An order table with one data row and a single resolvable column. -/
def otOne : OrderTable :=
  ⟨["Total Payment Received"], [[Cell.num 5]]⟩

/-- A one-cell production grid whose anchor sits in the frame's last column:
the walk's read at `col+1` is out of bounds. -/
def gInvCrash : Grid :=
  [ [Cell.str "XNBR Latex"] ]

/-- An order table whose single resolvable column holds a text cell in the
last row, so the currency format raises. -/
def otBad : OrderTable :=
  ⟨["Total Payment Received"], [[Cell.str "oops"]]⟩

/-- The two rows the walk over `gInv2` emits. -/
def invRowsW : List Row :=
  [ ⟨19, "XNBR LATEX", "Kg", "", "100 Kg", "Stock available for 3 days."⟩,
    ⟨20, "CHEM B", "Kg", "", "200 Kg", "Stock available for 4 days."⟩ ]

/-- The accumulator produced by the order extractor on `otTwo` over the
seeded rows: serials 24 and 26 appended. -/
def a6W : Acc :=
  seed_rows ++
    [⟨24, "CLEAR ORDER VALUE", "Rs.", "", "Rs. 2.00",
      "Total Clear Order value is Rs. 2.00"⟩] ++
    [⟨26, "PENDING", "Rs.", "", "Rs. 3.00",
      "Pending quantity value is Rs. 3.00"⟩]

/-- An order table with one data row resolving the payment and the pending
columns, but not the dispatch column. -/
def otTwo : OrderTable :=
  ⟨["Sl", "Total Payment Received (Rs)", "Advance Payment Pending"],
   [[Cell.num 1, Cell.num 2, Cell.num 3]]⟩

/-- An OEE row for Line 1 with OEE = 0 (shutdown). -/
def oeeRow1 : OeeRow := ⟨⟨100, 0⟩, "Line 1", 0, 0, 0, 0, 0⟩

/-- An OEE row for Line 2 with OEE > 0 and 22 run hours. -/
def oeeRow2 : OeeRow := ⟨⟨100, 0⟩, "Line 2", 22, 440000, 1, 1, 0⟩

/-- An OEE row for Line 3 with OEE > 0 but zero run time. -/
def oeeRow3 : OeeRow := ⟨⟨100, 0⟩, "Line 3", 0, 100, 1, 1, 0⟩

/-- An OEE sheet with all three lines present for day 100. -/
def oeeW : List OeeRow := [oeeRow1, oeeRow2, oeeRow3]

/-- An OEE sheet whose only row carries a nonzero time-of-day on day 100. -/
def oeeTod : List OeeRow := [⟨⟨100, 3600⟩, "Line 1", 22, 440000, 1, 8/10, 0⟩]

/-- A consumption grid whose date cell for day 100 carries a nonzero
time-of-day. -/
def gConsumpTod : Grid :=
  [ [Cell.str "d", Cell.dt 100 3600],
    [Cell.str "Coal", Cell.num 4] ]

/-- The report produced from an empty OEE sheet and no other sheets: the
seeded rows with only the abnormalities stub applied. -/
def rptW : List Row := sortBySno (process_abnormalities seed_rows)

/-! ## Helper lemmas about the accumulator primitives -/

theorem sno_setFieldV (row : Row) (f : Field) (v : String) :
    (row.setFieldV f v).sno = row.sno := by
  cases f <;> rfl

theorem getField_setFieldV_self (row : Row) (f : Field) (v : String) :
    (row.setFieldV f v).getField f = v := by
  cases f <;> rfl

theorem getField_setFieldV_ne (row : Row) (f f2 : Field) (v : String)
    (h : f ≠ f2) : (row.setFieldV f v).getField f2 = row.getField f2 := by
  cases f <;> cases f2 <;> first
    | rfl
    | exact absurd rfl h

theorem accKeys_setLoc (acc : Acc) (s : Nat) (f : Field) (v : String) :
    accKeys (setLoc acc s f v) = accKeys acc := by
  induction acc with
  | nil => rfl
  | cons r rs ih =>
    simp only [accKeys, setLoc, List.map_cons] at *
    rw [ih]
    by_cases h : r.sno = s <;> simp [h, sno_setFieldV]

theorem getLoc_cons (x : Row) (xs : Acc) (s2 : Nat) (f2 : Field) :
    getLoc (x :: xs) s2 f2
      = if x.sno = s2 then x.getField f2 else getLoc xs s2 f2 := by
  by_cases h : x.sno = s2 <;> simp [getLoc, List.find?_cons, h]

theorem setLoc_cons_hit (x : Row) (xs : Acc) (s : Nat) (f : Field) (v : String)
    (h : x.sno = s) :
    setLoc (x :: xs) s f v = x.setFieldV f v :: setLoc xs s f v := by
  simp [setLoc, h]

theorem setLoc_cons_miss (x : Row) (xs : Acc) (s : Nat) (f : Field) (v : String)
    (h : x.sno ≠ s) :
    setLoc (x :: xs) s f v = x :: setLoc xs s f v := by
  simp [setLoc, h]

theorem getLoc_setLoc_ne (acc : Acc) (s : Nat) (f : Field) (v : String)
    (s2 : Nat) (f2 : Field) (h : s ≠ s2 ∨ f ≠ f2) :
    getLoc (setLoc acc s f v) s2 f2 = getLoc acc s2 f2 := by
  induction acc with
  | nil => rfl
  | cons r rs ih =>
    by_cases hs : r.sno = s
    · rw [setLoc_cons_hit r rs s f v hs, getLoc_cons, getLoc_cons, sno_setFieldV]
      by_cases h2 : r.sno = s2
      · rw [if_pos h2, if_pos h2]
        rcases h with hss | hff
        · exact absurd (hs.symm.trans h2) hss
        · exact getField_setFieldV_ne r f f2 v hff
      · rw [if_neg h2, if_neg h2]
        exact ih
    · rw [setLoc_cons_miss r rs s f v hs, getLoc_cons, getLoc_cons]
      by_cases h2 : r.sno = s2
      · rw [if_pos h2, if_pos h2]
      · rw [if_neg h2, if_neg h2]
        exact ih

theorem getLoc_setLoc_self (acc : Acc) (s : Nat) (f : Field) (v : String)
    (h : s ∈ accKeys acc) :
    getLoc (setLoc acc s f v) s f = v := by
  induction acc with
  | nil => cases h
  | cons r rs ih =>
    by_cases hs : r.sno = s
    · rw [setLoc_cons_hit r rs s f v hs, getLoc_cons, sno_setFieldV, if_pos hs,
        getField_setFieldV_self]
    · rw [setLoc_cons_miss r rs s f v hs, getLoc_cons, if_neg hs]
      apply ih
      have hx : s ∈ r.sno :: accKeys rs := h
      rcases List.mem_cons.mp hx with h2 | h2
      · exact absurd h2.symm hs
      · exact h2

/-! ## Helper lemmas about the scanners -/

theorem findIdxO_eq_none {α : Type} (p : α → Bool) (l : List α)
    (h : findIdxO p l = none) : ∀ x ∈ l, p x = false := by
  induction l with
  | nil => intro x hx; cases hx
  | cons y ys ih =>
    intro x hx
    cases hy : p y with
    | true => simp [findIdxO, hy] at h
    | false =>
      simp only [findIdxO, hy, if_false, Bool.false_eq_true,
        Option.map_eq_none'] at h
      rcases List.mem_cons.mp hx with rfl | hx2
      · exact hy
      · exact ih h x hx2

theorem findIdxO_spec {α : Type} (p : α → Bool) (d : α) (l : List α) (i : Nat)
    (h : findIdxO p l = some i) :
    p (l.getD i d) = true ∧ ∀ j, j < i → p (l.getD j d) = false := by
  induction l generalizing i with
  | nil => cases h
  | cons y ys ih =>
    cases hy : p y with
    | true =>
      simp only [findIdxO, hy, if_true] at h
      cases h
      exact ⟨by simpa using hy, fun j hj => absurd hj (Nat.not_lt_zero j)⟩
    | false =>
      simp only [findIdxO, hy, if_false, Bool.false_eq_true,
        Option.map_eq_some'] at h
      rcases h with ⟨i0, hi0, rfl⟩
      rcases ih i0 hi0 with ⟨h1, h2⟩
      refine ⟨by simpa using h1, ?_⟩
      intro j hj
      cases j with
      | zero => simpa using hy
      | succ j0 =>
        have : j0 < i0 := by omega
        simpa using h2 j0 this

theorem findCellRM_isSome (g : Grid) (p : Cell → Bool) (r c : Nat) (cl : Cell)
    (hc : cellAt g r c = some cl) (hp : p cl = true) :
    (findCellRM g p).isSome := by
  induction g generalizing r with
  | nil => simp [cellAt] at hc
  | cons row rest ih =>
    unfold findCellRM
    cases hf : findIdxO p row with
    | some c0 => simp
    | none =>
      cases r with
      | zero =>
        have hmem : cl ∈ row := by
          simp only [cellAt, List.get?_cons_zero, Option.some_bind] at hc
          exact List.get?_mem hc
        have := findIdxO_eq_none p row hf cl hmem
        rw [hp] at this
        cases this
      | succ r0 =>
        have hc2 : cellAt rest r0 c = some cl := by
          simpa [cellAt] using hc
        have := ih r0 hc2
        rcases Option.isSome_iff_exists.mp this with ⟨rc, hrc⟩
        simp [hrc]

/-! ## Lemmas about the OEE extractor -/

theorem getLoc_setLoc_sne (acc : Acc) (s : Nat) (f : Field) (v : String)
    (s2 : Nat) (f2 : Field) (h : s ≠ s2) :
    getLoc (setLoc acc s f v) s2 f2 = getLoc acc s2 f2 :=
  getLoc_setLoc_ne acc s f v s2 f2 (Or.inl h)

theorem getLoc_oeeLine_ne (d : List OeeRow) (i : Nat) (acc : Acc) (s : Nat)
    (f : Field) (h1 : s ≠ 4 * i - 3) (h2 : s ≠ 4 * i - 2) (h3 : s ≠ 4 * i - 1)
    (h4 : s ≠ 4 * i) :
    getLoc (oeeLine d i acc) s f = getLoc acc s f := by
  simp only [oeeLine]
  cases d.filter (fun row => row.line == "Line " ++ toString i) with
  | nil =>
    rw [getLoc_setLoc_sne _ _ _ _ _ _ (Ne.symm h1),
        getLoc_setLoc_sne _ _ _ _ _ _ (Ne.symm h4),
        getLoc_setLoc_sne _ _ _ _ _ _ (Ne.symm h3),
        getLoc_setLoc_sne _ _ _ _ _ _ (Ne.symm h2),
        getLoc_setLoc_sne _ _ _ _ _ _ (Ne.symm h1)]
  | cons first rest =>
    dsimp only
    by_cases h0 : 0 < first.oee
    · rw [if_pos h0]
      rw [getLoc_setLoc_sne _ _ _ _ _ _ (Ne.symm h4),
          getLoc_setLoc_sne _ _ _ _ _ _ (Ne.symm h4),
          getLoc_setLoc_sne _ _ _ _ _ _ (Ne.symm h3),
          getLoc_setLoc_sne _ _ _ _ _ _ (Ne.symm h3),
          getLoc_setLoc_sne _ _ _ _ _ _ (Ne.symm h2),
          getLoc_setLoc_sne _ _ _ _ _ _ (Ne.symm h2),
          getLoc_setLoc_sne _ _ _ _ _ _ (Ne.symm h1),
          getLoc_setLoc_sne _ _ _ _ _ _ (Ne.symm h1)]
    · rw [if_neg h0]
      rw [getLoc_setLoc_sne _ _ _ _ _ _ (Ne.symm h1),
          getLoc_setLoc_sne _ _ _ _ _ _ (Ne.symm h4),
          getLoc_setLoc_sne _ _ _ _ _ _ (Ne.symm h3),
          getLoc_setLoc_sne _ _ _ _ _ _ (Ne.symm h2),
          getLoc_setLoc_sne _ _ _ _ _ _ (Ne.symm h1)]

theorem accKeys_oeeLine (d : List OeeRow) (i : Nat) (acc : Acc) :
    accKeys (oeeLine d i acc) = accKeys acc := by
  simp only [oeeLine]
  cases d.filter (fun row => row.line == "Line " ++ toString i) with
  | nil => rw [accKeys_setLoc, accKeys_setLoc, accKeys_setLoc, accKeys_setLoc,
      accKeys_setLoc]
  | cons first rest =>
    dsimp only
    by_cases h0 : 0 < first.oee
    · rw [if_pos h0]
      rw [accKeys_setLoc, accKeys_setLoc, accKeys_setLoc, accKeys_setLoc,
          accKeys_setLoc, accKeys_setLoc, accKeys_setLoc, accKeys_setLoc]
    · rw [if_neg h0]
      rw [accKeys_setLoc, accKeys_setLoc, accKeys_setLoc, accKeys_setLoc,
          accKeys_setLoc]

theorem accKeys_process_oee_data (df : List OeeRow) (target : DT) (acc : Acc) :
    accKeys (process_oee_data df target acc).1 = accKeys acc := by
  simp only [process_oee_data]
  split
  · rfl
  · rw [accKeys_oeeLine, accKeys_oeeLine, accKeys_oeeLine]

theorem accKeys_process_abnormalities (acc : Acc) :
    accKeys (process_abnormalities acc) = accKeys acc := by
  simp only [process_abnormalities]
  rw [accKeys_setLoc, accKeys_setLoc]

theorem accKeys_process_production_target (p : Option Grid) (acc : Acc) :
    accKeys (process_production_target p acc).1 = accKeys acc := by
  cases p with
  | none => rfl
  | some g =>
    cases hf : findCellRM g (fun c => containsKw (cellStr c) "target mtd") with
    | none => simp [process_production_target, hf]
    | some xy =>
      cases xy with
      | mk x y =>
        cases h1 : cellAt g x (y + 1) with
        | none => simp [process_production_target, hf, h1]
        | some tq =>
          cases h2 : cellAt g (x + 1) (y + 1) with
          | none => simp [process_production_target, hf, h1, h2]
          | some aq =>
            cases h3 : cellAt g (x + 2) (y + 1) with
            | none => simp [process_production_target, hf, h1, h2, h3]
            | some ap =>
              simp [process_production_target, hf, h1, h2, h3, accKeys_setLoc]

theorem accKeys_process_consumption (p : Option Grid) (target : DT)
    (acc : Acc) :
    accKeys (process_consumption p target acc).1 = accKeys acc := by
  cases p with
  | none => rfl
  | some g =>
    cases hd : dateColIdx g target with
    | none => simp [process_consumption, hd]
    | some dateCol =>
      cases hc : coalRowIdx g <;> cases he : elecRowIdx g <;>
        simp [process_consumption, hd, hc, he, accKeys_setLoc]

theorem accKeys_append (a b : Acc) :
    accKeys (a ++ b) = accKeys a ++ accKeys b :=
  List.map_append _ _ _

theorem process_inventory_ok (p : Option Grid) (acc a : Acc)
    (w : List String) (h : process_inventory p acc = .ok (a, w)) :
    a = acc ++ inventory_rows p := by
  cases p with
  | none =>
    simp only [process_inventory] at h
    cases h
    simp [inventory_rows]
  | some g =>
    simp only [process_inventory] at h
    cases hf : findCellRM g (fun c => containsKw (cellStr c) "xnbr latex") with
    | none =>
      rw [hf] at h
      dsimp only at h
      cases h
      simp [inventory_rows, hf]
    | some rc =>
      cases rc with
      | mk r c =>
        rw [hf] at h
        dsimp only at h
        cases hw : inv_walk g c r (g.length - r) 19 with
        | error e => rw [hw] at h; dsimp only at h; cases h
        | ok rows =>
          rw [hw] at h
          dsimp only at h
          cases h
          simp [inventory_rows, hf, hw]

theorem mkFinRow_sno (sno : Nat) (p rt : String) (v : Cell) (row : Row)
    (h : mkFinRow sno p rt v = .ok row) : row.sno = sno := by
  simp only [mkFinRow] at h
  cases hf : fmtCell2E v with
  | error e => rw [hf] at h; dsimp only at h; cases h
  | ok s2 => rw [hf] at h; dsimp only at h; cases h; rfl

theorem finRowsFor_keys (lastRow : List Cell) (o : Option Nat) (sno : Nat)
    (p rt : String) (rows : List Row)
    (h : finRowsFor lastRow o sno p rt = .ok rows) :
    accKeys rows = optKey o sno := by
  cases o with
  | none =>
    simp only [finRowsFor] at h
    cases h
    rfl
  | some j =>
    simp only [finRowsFor] at h
    cases hm : mkFinRow sno p rt (lastRow.getD j Cell.empty) with
    | error e => rw [hm] at h; dsimp only at h; cases h
    | ok row =>
      rw [hm] at h
      dsimp only at h
      cases h
      simp [accKeys, optKey, mkFinRow_sno sno p rt _ row hm]

theorem process_order_details_ok (t : OrderTable) (acc a6 : Acc)
    (w : List String) (h : process_order_details (some t) acc = .ok (a6, w)) :
    w = [] ∧ accKeys a6 = accKeys acc ++ order_keys t := by
  simp only [process_order_details] at h
  cases hl : t.rows.getLast? with
  | none => rw [hl] at h; cases h
  | some lastRow =>
    rw [hl] at h
    dsimp only at h
    cases h1 : finRowsFor lastRow (resolveCol t "total payment receive") 24
        "CLEAR ORDER VALUE" "Total Clear Order value" with
    | error e => rw [h1] at h; dsimp only at h; cases h
    | ok rows1 =>
      rw [h1] at h
      dsimp only at h
      cases h2 : finRowsFor lastRow (resolveCol t "total dispatch price") 25
          "TOTAL DISPATCH VALUE" "Total dispatch value" with
      | error e => rw [h2] at h; dsimp only at h; cases h
      | ok rows2 =>
        rw [h2] at h
        dsimp only at h
        cases h3 : finRowsFor lastRow (resolveCol t "advance payment") 26
            "PENDING" "Pending quantity value" with
        | error e => rw [h3] at h; dsimp only at h; cases h
        | ok rows3 =>
          rw [h3] at h
          dsimp only at h
          cases h
          refine ⟨rfl, ?_⟩
          rw [accKeys_append, accKeys_append, accKeys_append, order_keys,
            finRowsFor_keys _ _ _ _ _ _ h1, finRowsFor_keys _ _ _ _ _ _ h2,
            finRowsFor_keys _ _ _ _ _ _ h3]
          simp [List.append_assoc]

/-! ## Lemmas about the inventory walk -/

theorem mkInvRow_sno (g : Grid) (r c s : Nat) (row : Row)
    (h : mkInvRow g r c s = .ok row) : row.sno = s := by
  simp only [mkInvRow] at h
  cases h1 : ilocE g r (c + 1) with
  | error e => rw [h1] at h; dsimp only at h; cases h
  | ok actualVal =>
    rw [h1] at h
    dsimp only at h
    cases h2 : ilocE g r (c + 2) with
    | error e => rw [h2] at h; dsimp only at h; cases h
    | ok daysVal =>
      rw [h2] at h
      dsimp only at h
      cases h3 : fmtCell0E actualVal with
      | error e => rw [h3] at h; dsimp only at h; cases h
      | ok actualStr => rw [h3] at h; dsimp only at h; cases h; rfl

theorem inv_walk_snos (g : Grid) (c : Nat) (fuel : Nat) :
    ∀ (r s : Nat) (rows : List Row), inv_walk g c r fuel s = .ok rows →
      rows.map Row.sno = List.range' s rows.length := by
  induction fuel with
  | zero =>
    intro r s rows h
    cases h
    rfl
  | succ n ih =>
    intro r s rows h
    simp only [inv_walk] at h
    cases hstop : isStopB (cellAtD g r c) with
    | true =>
      rw [hstop, if_pos rfl] at h
      cases h
      rfl
    | false =>
      rw [hstop] at h
      simp only [Bool.false_eq_true, if_false] at h
      cases hmk : mkInvRow g r c s with
      | error e => rw [hmk] at h; dsimp only at h; cases h
      | ok row =>
        rw [hmk] at h
        dsimp only at h
        cases hrest : inv_walk g c (r + 1) n (s + 1) with
        | error e => rw [hrest] at h; dsimp only at h; cases h
        | ok rest =>
          rw [hrest] at h
          dsimp only at h
          cases h
          simp only [List.map_cons, List.length_cons,
            mkInvRow_sno g r c s row hmk]
          rw [ih (r + 1) (s + 1) rest hrest, List.range'_succ]

theorem inv_walk_no_stop (g : Grid) (c : Nat) (fuel : Nat) :
    ∀ (r s : Nat) (rows : List Row) (k : Nat),
      inv_walk g c r fuel s = .ok rows →
      k < rows.length → isStopB (cellAtD g (r + k) c) = false := by
  induction fuel with
  | zero =>
    intro r s rows k h hk
    cases h
    cases hk
  | succ n ih =>
    intro r s rows k h hk
    simp only [inv_walk] at h
    cases hstop : isStopB (cellAtD g r c) with
    | true =>
      rw [hstop, if_pos rfl] at h
      cases h
      cases hk
    | false =>
      rw [hstop] at h
      simp only [Bool.false_eq_true, if_false] at h
      cases hmk : mkInvRow g r c s with
      | error e => rw [hmk] at h; dsimp only at h; cases h
      | ok row =>
        rw [hmk] at h
        dsimp only at h
        cases hrest : inv_walk g c (r + 1) n (s + 1) with
        | error e => rw [hrest] at h; dsimp only at h; cases h
        | ok rest =>
          rw [hrest] at h
          dsimp only at h
          cases h
          cases k with
          | zero => simpa using hstop
          | succ k0 =>
            have hk0 : k0 < rest.length := by
              simpa using Nat.lt_of_succ_lt_succ hk
            have := ih (r + 1) (s + 1) rest k0 hrest hk0
            have harith : r + (k0 + 1) = r + 1 + k0 := by omega
            rw [harith]
            exact this

theorem inv_walk_end (g : Grid) (c : Nat) (fuel : Nat) :
    ∀ (r s : Nat) (rows : List Row), inv_walk g c r fuel s = .ok rows →
      rows.length = fuel ∨
        isStopB (cellAtD g (r + rows.length) c) = true := by
  induction fuel with
  | zero =>
    intro r s rows h
    cases h
    exact Or.inl rfl
  | succ n ih =>
    intro r s rows h
    simp only [inv_walk] at h
    cases hstop : isStopB (cellAtD g r c) with
    | true =>
      rw [hstop, if_pos rfl] at h
      cases h
      right
      simpa using hstop
    | false =>
      rw [hstop] at h
      simp only [Bool.false_eq_true, if_false] at h
      cases hmk : mkInvRow g r c s with
      | error e => rw [hmk] at h; dsimp only at h; cases h
      | ok row =>
        rw [hmk] at h
        dsimp only at h
        cases hrest : inv_walk g c (r + 1) n (s + 1) with
        | error e => rw [hrest] at h; dsimp only at h; cases h
        | ok rest =>
          rw [hrest] at h
          dsimp only at h
          cases h
          rcases ih (r + 1) (s + 1) rest hrest with h | h
          · left
            simp [h]
          · right
            have harith : r + (rest.length + 1) = r + 1 + rest.length := by
              omega
            simpa [harith] using h

theorem getLoc_oeeLine_shutdown (d : List OeeRow) (i : Nat) (acc : Acc)
    (hi : 1 ≤ i)
    (hsd : lineOk (d.filter fun row => row.line == "Line " ++ toString i) = false)
    (m1 : 4 * i - 3 ∈ accKeys acc) (m2 : 4 * i - 2 ∈ accKeys acc)
    (m3 : 4 * i - 1 ∈ accKeys acc) (m4 : 4 * i ∈ accKeys acc) :
    getLoc (oeeLine d i acc) (4 * i - 3) .actual = "Shutdown" ∧
    getLoc (oeeLine d i acc) (4 * i - 2) .actual = "Shutdown" ∧
    getLoc (oeeLine d i acc) (4 * i - 1) .actual = "Shutdown" ∧
    getLoc (oeeLine d i acc) (4 * i) .actual = "Shutdown" ∧
    getLoc (oeeLine d i acc) (4 * i - 3) .remark
      = "Line was Shutdown for the day." ∧
    getLoc (oeeLine d i acc) (4 * i - 2) .remark
      = getLoc acc (4 * i - 2) .remark ∧
    getLoc (oeeLine d i acc) (4 * i - 1) .remark
      = getLoc acc (4 * i - 1) .remark ∧
    getLoc (oeeLine d i acc) (4 * i) .remark = getLoc acc (4 * i) .remark := by
  have n12 : 4 * i - 3 ≠ 4 * i - 2 := by omega
  have n13 : 4 * i - 3 ≠ 4 * i - 1 := by omega
  have n14 : 4 * i - 3 ≠ 4 * i := by omega
  have n23 : 4 * i - 2 ≠ 4 * i - 1 := by omega
  have n24 : 4 * i - 2 ≠ 4 * i := by omega
  have n34 : 4 * i - 1 ≠ 4 * i := by omega
  have nra : Field.remark ≠ Field.actual := by decide
  have nar : Field.actual ≠ Field.remark := by decide
  have hgoal : oeeLine d i acc =
      setLoc (setLoc (setLoc (setLoc (setLoc acc (4 * i - 3) .actual "Shutdown")
        (4 * i - 2) .actual "Shutdown") (4 * i - 1) .actual "Shutdown")
        (4 * i) .actual "Shutdown")
        (4 * i - 3) .remark "Line was Shutdown for the day." := by
    cases hl : d.filter (fun row => row.line == "Line " ++ toString i) with
    | nil => simp only [oeeLine, hl]
    | cons first rest =>
      have h0 : ¬ 0 < first.oee := by
        rw [hl] at hsd
        simpa [lineOk] using hsd
      simp only [oeeLine, hl]
      rw [if_neg h0]
  rw [hgoal]
  refine ⟨?_, ?_, ?_, ?_, ?_, ?_, ?_, ?_⟩
  · rw [getLoc_setLoc_ne _ _ _ _ _ _ (Or.inr nra),
        getLoc_setLoc_sne _ _ _ _ _ _ (Ne.symm n14),
        getLoc_setLoc_sne _ _ _ _ _ _ (Ne.symm n13),
        getLoc_setLoc_sne _ _ _ _ _ _ (Ne.symm n12),
        getLoc_setLoc_self _ _ _ _ m1]
  · rw [getLoc_setLoc_sne _ _ _ _ _ _ n12,
        getLoc_setLoc_sne _ _ _ _ _ _ (Ne.symm n24),
        getLoc_setLoc_sne _ _ _ _ _ _ (Ne.symm n23),
        getLoc_setLoc_self _ _ _ _ (by rw [accKeys_setLoc]; exact m2)]
  · rw [getLoc_setLoc_sne _ _ _ _ _ _ n13,
        getLoc_setLoc_sne _ _ _ _ _ _ (Ne.symm n34),
        getLoc_setLoc_self _ _ _ _
          (by rw [accKeys_setLoc, accKeys_setLoc]; exact m3)]
  · rw [getLoc_setLoc_sne _ _ _ _ _ _ n14,
        getLoc_setLoc_self _ _ _ _
          (by rw [accKeys_setLoc, accKeys_setLoc, accKeys_setLoc]; exact m4)]
  · rw [getLoc_setLoc_self _ _ _ _
          (by rw [accKeys_setLoc, accKeys_setLoc, accKeys_setLoc,
            accKeys_setLoc]; exact m1)]
  · rw [getLoc_setLoc_sne _ _ _ _ _ _ n12,
        getLoc_setLoc_sne _ _ _ _ _ _ (Ne.symm n24),
        getLoc_setLoc_sne _ _ _ _ _ _ (Ne.symm n23),
        getLoc_setLoc_ne _ _ _ _ _ _ (Or.inr nar),
        getLoc_setLoc_sne _ _ _ _ _ _ n12]
  · rw [getLoc_setLoc_sne _ _ _ _ _ _ n13,
        getLoc_setLoc_sne _ _ _ _ _ _ (Ne.symm n34),
        getLoc_setLoc_ne _ _ _ _ _ _ (Or.inr nar),
        getLoc_setLoc_sne _ _ _ _ _ _ n23,
        getLoc_setLoc_sne _ _ _ _ _ _ n13]
  · rw [getLoc_setLoc_sne _ _ _ _ _ _ n14,
        getLoc_setLoc_ne _ _ _ _ _ _ (Or.inr nar),
        getLoc_setLoc_sne _ _ _ _ _ _ n34,
        getLoc_setLoc_sne _ _ _ _ _ _ n24,
        getLoc_setLoc_sne _ _ _ _ _ _ n14]

theorem getLoc_oeeLine_cap (d : List OeeRow) (i : Nat) (acc : Acc)
    (first : OeeRow) (rest : List OeeRow) (hi : 1 ≤ i)
    (hl : d.filter (fun row => row.line == "Line " ++ toString i)
      = first :: rest)
    (h0 : 0 < first.oee)
    (m2 : 4 * i - 2 ∈ accKeys acc) :
    getLoc (oeeLine d i acc) (4 * i - 2) .actual
      = fmtComma0 (prodCapacity first.totalPcs first.runTime) ++ " Pcs/hrs" := by
  have n23 : 4 * i - 2 ≠ 4 * i - 1 := by omega
  have n24 : 4 * i - 2 ≠ 4 * i := by omega
  have nra : Field.remark ≠ Field.actual := by decide
  simp only [oeeLine, hl]
  rw [if_pos h0]
  rw [getLoc_setLoc_sne _ _ _ _ _ _ (Ne.symm n24),
      getLoc_setLoc_sne _ _ _ _ _ _ (Ne.symm n24),
      getLoc_setLoc_sne _ _ _ _ _ _ (Ne.symm n23),
      getLoc_setLoc_sne _ _ _ _ _ _ (Ne.symm n23),
      getLoc_setLoc_ne _ _ _ _ _ _ (Or.inr nra),
      getLoc_setLoc_self _ _ _ _
        (by rw [accKeys_setLoc, accKeys_setLoc]; exact m2)]

/-! ## Sorting preserves the rows up to permutation -/

theorem insertBySno_perm (x : Row) (l : List Row) :
    (insertBySno x l).Perm (x :: l) := by
  induction l with
  | nil => exact List.Perm.refl _
  | cons y ys ih =>
    simp only [insertBySno]
    by_cases h : x.sno ≤ y.sno
    · rw [if_pos h]
    · rw [if_neg h]
      exact List.Perm.trans (List.Perm.cons y ih) (List.Perm.swap x y ys)

theorem sortBySno_perm (l : List Row) : (sortBySno l).Perm l := by
  induction l with
  | nil => exact List.Perm.refl _
  | cons x xs ih =>
    simp only [sortBySno]
    exact List.Perm.trans (insertBySno_perm x (sortBySno xs))
      (List.Perm.cons x ih)

/-! ## The claims -/

/-- Claim C5: for every target date with no matching row in the OEE sheet,
the extractor returns the accumulator unchanged (in particular, all twelve
line-performance serials keep their seeded defaults) and emits exactly one
warning. -/
theorem C5_oee_no_match (oee_df : List OeeRow) (target : DT) (acc : Acc)
    (h : oee_df.filter (fun row => row.date == target) = []) :
    (process_oee_data oee_df target acc).1 = acc ∧
    (process_oee_data oee_df target acc).2.length = 1 := by
  rw [process_oee_data, h]
  exact ⟨rfl, rfl⟩

/-- Witness for C5: the sheet `oeeW` has no row for day 200, and the
extractor leaves the seeded accumulator untouched with a single warning. -/
theorem C5_oee_no_match_witness :
    oeeW.filter (fun row => row.date == (⟨200, 0⟩ : DT)) = [] ∧
    (process_oee_data oeeW ⟨200, 0⟩ seed_rows).1 = seed_rows ∧
    (process_oee_data oeeW ⟨200, 0⟩ seed_rows).2.length = 1 :=
  ⟨rfl,
    (C5_oee_no_match oeeW ⟨200, 0⟩ seed_rows rfl).1,
    (C5_oee_no_match oeeW ⟨200, 0⟩ seed_rows rfl).2⟩

/-- Claim C10: when the order-details sheet is located but holds only a
header and zero data rows, reading the last row (`order_df.iloc[-1]`)
raises an `IndexError` that escapes the extractor, instead of warning and
returning the accumulator unchanged. -/
theorem C10_empty_order_table (hdrs : List String) (acc : Acc) :
    process_order_details (some ⟨hdrs, []⟩) acc
      = Except.error "IndexError: single positional indexer is out-of-bounds" :=
  rfl

/-- Claim C9: the OEE extractor matches rows by exact timestamp equality, so
when every `Date` cell carries a nonzero time-of-day no row matches a
midnight target even on the right calendar day (the accumulator is returned
unchanged with one warning), while the consumption extractor compares
date-only and still locates the date column from such a cell. -/
theorem C9_timestamp_vs_date (oee_df : List OeeRow) (target : DT) (acc : Acc)
    (g : Grid) (r c : Nat) (t : Int)
    (htod : target.tod = 0)
    (hall : oee_df.all (fun row => row.date.tod != 0) = true)
    (ht : t ≠ 0)
    (hcell : cellAt g r c = some (Cell.dt target.day t)) :
    (process_oee_data oee_df target acc).1 = acc ∧
    (process_oee_data oee_df target acc).2.length = 1 ∧
    (dateColIdx g target).isSome = true := by
  have hfil : oee_df.filter (fun row => row.date == target) = [] := by
    rw [List.filter_eq_nil_iff]
    intro row hrow
    have hne := List.all_eq_true.mp hall row hrow
    simp only [bne_iff_ne, ne_eq] at hne
    simp only [beq_iff_eq]
    intro heq
    exact hne (by rw [heq, htod])
  refine ⟨?_, ?_, ?_⟩
  · rw [process_oee_data, hfil]
    rfl
  · rw [process_oee_data, hfil]
    rfl
  · have hp : (fun cell => match cellToDT cell with
        | some d => d.day == target.day
        | none => false) (Cell.dt target.day t) = true := by
      simp [cellToDT]
    rcases Option.isSome_iff_exists.mp
        (findCellRM_isSome g (fun cell => match cellToDT cell with
          | some d => d.day == target.day
          | none => false) r c _ hcell hp) with ⟨rc, hrc⟩
    simp [dateColIdx, hrc]

/-- Witness for C9: the OEE sheet `oeeTod` only has a row stamped at hour 1
of day 100; the midnight target for day 100 matches nothing there, while the
consumption grid `gConsumpTod` (also stamped at hour 1) still yields a date
column. -/
theorem C9_timestamp_vs_date_witness :
    (⟨100, 0⟩ : DT).tod = 0 ∧
    oeeTod.all (fun row => row.date.tod != 0) = true ∧
    (3600 : Int) ≠ 0 ∧
    cellAt gConsumpTod 0 1 = some (Cell.dt 100 3600) ∧
    ((process_oee_data oeeTod ⟨100, 0⟩ seed_rows).1 = seed_rows ∧
     (process_oee_data oeeTod ⟨100, 0⟩ seed_rows).2.length = 1 ∧
     (dateColIdx gConsumpTod ⟨100, 0⟩).isSome = true) :=
  ⟨rfl, by decide, by decide, rfl,
    C9_timestamp_vs_date oeeTod ⟨100, 0⟩ seed_rows gConsumpTod 0 1 3600
      rfl (by decide) (by decide) rfl⟩

/-- Counterexample to C2: in `gTarget10` the only `target mtd` cell sits at
row index 10, yet the extractor uses it — the scan emits no warning and
fills serial 14 from the cells next to the row-10 keyword, instead of taking
the keyword-not-found path. -/
theorem C2_counterexample :
    findCellRM gTarget10 (fun c => containsKw (cellStr c) "target mtd")
      = some (10, 0) ∧
    (process_production_target (some gTarget10) seed_rows).2 = [] ∧
    getLoc (process_production_target (some gTarget10) seed_rows).1 14
      .standard = "1,000 Pcs" := by
  refine ⟨by decide, by decide, by decide⟩

/-- Claim C2 amended: the `target mtd` scan of the production-target
extractor is unbounded — a keyword cell at any row index, including 10 and
beyond, is found by the scan, and the keyword-not-found warning is never
emitted when such a cell exists. -/
theorem C2_unbounded_scan (g : Grid) (acc : Acc) (r c : Nat) (cl : Cell)
    (hr : 10 ≤ r)
    (hc : cellAt g r c = some cl)
    (hkw : containsKw (cellStr cl) "target mtd" = true) :
    (findCellRM g (fun x => containsKw (cellStr x) "target mtd")).isSome
      = true ∧
    wTargetKwMissing ∉ (process_production_target (some g) acc).2 := by
  have hsome := findCellRM_isSome g
    (fun x => containsKw (cellStr x) "target mtd") r c cl hc hkw
  refine ⟨hsome, ?_⟩
  rcases Option.isSome_iff_exists.mp hsome with ⟨⟨x, y⟩, hxy⟩
  have hw : (process_production_target (some g) acc).2 = [] ∨
      (process_production_target (some g) acc).2 = [wTargetOutOfRange] := by
    cases h1 : cellAt g x (y + 1) with
    | none => right; simp [process_production_target, hxy, h1]
    | some tq =>
      cases h2 : cellAt g (x + 1) (y + 1) with
      | none => right; simp [process_production_target, hxy, h1, h2]
      | some aq =>
        cases h3 : cellAt g (x + 2) (y + 1) with
        | none => right; simp [process_production_target, hxy, h1, h2, h3]
        | some ap => left; simp [process_production_target, hxy, h1, h2, h3]
  rcases hw with hw | hw <;> rw [hw] <;> decide

/-- Witness for C2 amended: the row-10 keyword cell of `gTarget10` satisfies
the hypotheses, the scan finds it, and no keyword warning is emitted. -/
theorem C2_unbounded_scan_witness :
    10 ≤ 10 ∧
    cellAt gTarget10 10 0 = some (Cell.str "Target MTD") ∧
    containsKw (cellStr (Cell.str "Target MTD")) "target mtd" = true ∧
    ((findCellRM gTarget10
        (fun x => containsKw (cellStr x) "target mtd")).isSome = true ∧
     wTargetKwMissing ∉ (process_production_target (some gTarget10)
        seed_rows).2) :=
  ⟨by decide, by decide, by decide,
    C2_unbounded_scan gTarget10 seed_rows 10 0 (Cell.str "Target MTD")
      (by decide) (by decide) (by decide)⟩

/-- Counterexample to C1: in `gConsump` the first column matches `coal` at
both row 1 (value 5) and row 2 (value 7); the emitted coal value is the
first row's `5 Kg`, not the last row's `7 Kg`. -/
theorem C1_counterexample :
    colKw "coal" ((firstColumn gConsump).getD 1 Cell.empty) = true ∧
    colKw "coal" ((firstColumn gConsump).getD 2 Cell.empty) = true ∧
    coalRowIdx gConsump = some 1 ∧
    getLoc (process_consumption (some gConsump) ⟨100, 0⟩ seed_rows).1 17
      .actual = "5 Kg" ∧
    fmtCell0 (cellAtD gConsump 2 1) ++ " Kg" = "7 Kg" ∧
    ("5 Kg" : String) ≠ "7 Kg" := by
  refine ⟨by decide, by decide, by decide, by decide, by decide, by decide⟩

/-- Claim C1 amended: when the first column contains multiple cells matching
`coal` (or `electri`), the value emitted for the corresponding KPI row is
read from the FIRST matching row in the column scan, not the last. -/
theorem C1_first_match_wins (g : Grid) (target : DT) (acc : Acc) (k i j : Nat)
    (hdk : dateColIdx g target = some k)
    (hci : coalRowIdx g = some i)
    (hei : elecRowIdx g = some j)
    (h17 : 17 ∈ accKeys acc)
    (h18 : 18 ∈ accKeys acc) :
    colKw "coal" ((firstColumn g).getD i Cell.empty) = true ∧
    ((List.range i).all
      fun j2 => !(colKw "coal" ((firstColumn g).getD j2 Cell.empty))) = true ∧
    colKw "electri" ((firstColumn g).getD j Cell.empty) = true ∧
    ((List.range j).all
      fun j2 => !(colKw "electri" ((firstColumn g).getD j2 Cell.empty))) = true ∧
    getLoc (process_consumption (some g) target acc).1 17 .actual
      = fmtCell0 (cellAtD g i k) ++ " Kg" ∧
    getLoc (process_consumption (some g) target acc).1 18 .actual
      = fmtCell0 (cellAtD g j k) ++ " Unit" := by
  have nra : Field.remark ≠ Field.actual := by decide
  have n1718 : (17 : Nat) ≠ 18 := by decide
  rcases findIdxO_spec (colKw "coal") Cell.empty (firstColumn g) i hci
    with ⟨hc1, hc2⟩
  rcases findIdxO_spec (colKw "electri") Cell.empty (firstColumn g) j hei
    with ⟨he1, he2⟩
  have hpc : (process_consumption (some g) target acc).1 =
      setLoc (setLoc (setLoc (setLoc acc
        17 .actual (fmtCell0 (cellAtD g i k) ++ " Kg"))
        17 .remark ("Coal consumption is " ++ fmtCell0 (cellAtD g i k) ++ " Kg."))
        18 .actual (fmtCell0 (cellAtD g j k) ++ " Unit"))
        18 .remark ("Electricity consumption is " ++ fmtCell0 (cellAtD g j k)
          ++ " unit.") := by
    simp [process_consumption, hdk, hci, hei]
  refine ⟨hc1, ?_, he1, ?_, ?_, ?_⟩
  · rw [List.all_eq_true]
    intro j2 hj2
    rw [hc2 j2 (List.mem_range.mp hj2)]
    rfl
  · rw [List.all_eq_true]
    intro j2 hj2
    rw [he2 j2 (List.mem_range.mp hj2)]
    rfl
  · rw [hpc,
      getLoc_setLoc_sne _ _ _ _ _ _ (Ne.symm n1718),
      getLoc_setLoc_sne _ _ _ _ _ _ (Ne.symm n1718),
      getLoc_setLoc_ne _ _ _ _ _ _ (Or.inr nra),
      getLoc_setLoc_self _ _ _ _ h17]
  · rw [hpc,
      getLoc_setLoc_ne _ _ _ _ _ _ (Or.inr nra),
      getLoc_setLoc_self _ _ _ _
        (by rw [accKeys_setLoc, accKeys_setLoc]; exact h18)]

/-- Witness for C1 amended: on `gConsump` the coal row resolves to index 1,
the electricity row to index 3, and the emitted strings come from those
first matches at date column 1. -/
theorem C1_first_match_wins_witness :
    dateColIdx gConsump ⟨100, 0⟩ = some 1 ∧
    coalRowIdx gConsump = some 1 ∧
    elecRowIdx gConsump = some 3 ∧
    17 ∈ accKeys seed_rows ∧
    18 ∈ accKeys seed_rows ∧
    (colKw "coal" ((firstColumn gConsump).getD 1 Cell.empty) = true ∧
     ((List.range 1).all
       fun j2 => !(colKw "coal" ((firstColumn gConsump).getD j2 Cell.empty)))
       = true ∧
     colKw "electri" ((firstColumn gConsump).getD 3 Cell.empty) = true ∧
     ((List.range 3).all
       fun j2 => !(colKw "electri" ((firstColumn gConsump).getD j2 Cell.empty)))
       = true ∧
     getLoc (process_consumption (some gConsump) ⟨100, 0⟩ seed_rows).1 17
       .actual = fmtCell0 (cellAtD gConsump 1 1) ++ " Kg" ∧
     getLoc (process_consumption (some gConsump) ⟨100, 0⟩ seed_rows).1 18
       .actual = fmtCell0 (cellAtD gConsump 3 1) ++ " Unit") :=
  ⟨by decide, by decide, by decide, by decide, by decide,
    C1_first_match_wins gConsump ⟨100, 0⟩ seed_rows 1 1 3
      (by decide) (by decide) (by decide) (by decide) (by decide)⟩

/-- Counterexample to C7: `otBad` has one data row and resolves the payment
column, but the cell there is text, so the `f"Rs. {val:,.2f}"` format raises
an uncaught exception — the extractor emits no row at all instead of the
resolved subset's row 24 with no warning. -/
theorem C7_counterexample :
    otBad.rows ≠ [] ∧
    resolveCol otBad "total payment receive" = some 0 ∧
    process_order_details (some otBad) seed_rows
      = Except.error
        "ValueError: unknown format code f for object of type str" := by
  refine ⟨by decide, by decide, rfl⟩

/-- Claim C7 amended: whenever the order extractor returns normally (the
last row's resolved cells survive the currency format), it raises no warning
and appends exactly the rows for the resolved columns, with their fixed
serials 24/25/26; only sheet absence produces a warning.  A resolved cell
the format rejects raises an uncaught exception and nothing is emitted. -/
theorem C7_order_columns (t : OrderTable) (acc a6 : Acc) (w : List String)
    (hok : process_order_details (some t) acc = Except.ok (a6, w)) :
    w = [] ∧
    accKeys a6 = accKeys acc ++ order_keys t ∧
    process_order_details none acc = Except.ok (acc, [wOrderSheetMissing]) :=
  ⟨(process_order_details_ok t acc a6 w hok).1,
   (process_order_details_ok t acc a6 w hok).2, rfl⟩

/-- Witness for C7: `otTwo` resolves the payment and pending columns but not
the dispatch column (numeric cells), so exactly serials 24 and 26 are
appended with no warning. -/
theorem C7_order_columns_witness :
    ([] : List String) = [] ∧
    accKeys a6W = accKeys seed_rows ++ order_keys otTwo ∧
    process_order_details none seed_rows
      = Except.ok (seed_rows, [wOrderSheetMissing]) :=
  C7_order_columns otTwo seed_rows a6W [] (by with_unfolding_all rfl)

/-- Claim C8: in the OEE extractor, a line row with run-time 0 yields
production capacity 0 instead of a division error, and a positive run-time
yields total pieces divided by run-time; the value written into the
capacity row's Actual is the formatted guarded quotient. -/
theorem C8_capacity_guard (oee_df : List OeeRow) (target : DT) (i : Nat)
    (first : OeeRow) (rest : List OeeRow)
    (hi1 : 1 ≤ i) (hi3 : i ≤ 3)
    (hne : (oee_df.filter fun row => row.date == target) ≠ [])
    (hl : ((oee_df.filter fun row => row.date == target).filter
            fun row => row.line == "Line " ++ toString i) = first :: rest)
    (h0 : 0 < first.oee) :
    getLoc (process_oee_data oee_df target seed_rows).1 (4 * i - 2) .actual
      = fmtComma0 (prodCapacity first.totalPcs first.runTime) ++ " Pcs/hrs" ∧
    (first.runTime = 0 → prodCapacity first.totalPcs first.runTime = 0) ∧
    (0 < first.runTime →
      prodCapacity first.totalPcs first.runTime
        = first.totalPcs / first.runTime) := by
  refine ⟨?_, ?_, ?_⟩
  · have hres : (process_oee_data oee_df target seed_rows).1
        = oeeLine (oee_df.filter fun row => row.date == target) 3
            (oeeLine (oee_df.filter fun row => row.date == target) 2
              (oeeLine (oee_df.filter fun row => row.date == target) 1
                seed_rows)) := by
      rw [process_oee_data]
      rw [if_neg (by simpa [List.isEmpty_iff] using hne)]
    rw [hres]
    interval_cases i
    · rw [getLoc_oeeLine_ne _ 3 _ _ _ (by decide) (by decide) (by decide)
          (by decide),
        getLoc_oeeLine_ne _ 2 _ _ _ (by decide) (by decide) (by decide)
          (by decide)]
      exact getLoc_oeeLine_cap _ 1 _ first rest (by decide) hl h0 (by decide)
    · rw [getLoc_oeeLine_ne _ 3 _ _ _ (by decide) (by decide) (by decide)
          (by decide)]
      exact getLoc_oeeLine_cap _ 2 _ first rest (by decide) hl h0
        (by rw [accKeys_oeeLine]; decide)
    · exact getLoc_oeeLine_cap _ 3 _ first rest (by decide) hl h0
        (by rw [accKeys_oeeLine, accKeys_oeeLine]; decide)
  · intro h
    simp [prodCapacity, h]
  · intro h
    simp [prodCapacity, h]

/-- Witness for C8: line 3 of `oeeW` has OEE 1/2 > 0 but run-time 0, and the
capacity row's Actual becomes the formatted guarded value (0, not a
division error); the numeric conjuncts are exercised at run-time 0. -/
theorem C8_capacity_guard_witness :
    (1 ≤ 3 ∧ 3 ≤ 3) ∧
    (oeeW.filter fun row => row.date == (⟨100, 0⟩ : DT)) ≠ [] ∧
    ((oeeW.filter fun row => row.date == (⟨100, 0⟩ : DT)).filter
        fun row => row.line == "Line " ++ toString 3) = oeeRow3 :: [] ∧
    0 < oeeRow3.oee ∧
    (getLoc (process_oee_data oeeW ⟨100, 0⟩ seed_rows).1 (4 * 3 - 2) .actual
      = fmtComma0 (prodCapacity oeeRow3.totalPcs oeeRow3.runTime)
          ++ " Pcs/hrs" ∧
     (oeeRow3.runTime = 0 → prodCapacity oeeRow3.totalPcs oeeRow3.runTime = 0) ∧
     (0 < oeeRow3.runTime →
       prodCapacity oeeRow3.totalPcs oeeRow3.runTime
        = oeeRow3.totalPcs / oeeRow3.runTime)) :=
  ⟨by decide, by decide, by decide, by decide,
    C8_capacity_guard oeeW ⟨100, 0⟩ 3 oeeRow3 [] (by decide) (by decide)
      (by decide) (by decide) (by decide)⟩

/-- Claim C4: when a date match exists, a line whose row is absent or whose
OEE is ≤ 0 gets all four Actual fields set to the `Shutdown` sentinel, the
working-hours row's Remark set to the shutdown notice, and the Remarks of
the other three rows left at their seeded empty strings. -/
theorem C4_shutdown_asymmetry (oee_df : List OeeRow) (target : DT) (i : Nat)
    (hi1 : 1 ≤ i) (hi3 : i ≤ 3)
    (hne : (oee_df.filter fun row => row.date == target) ≠ [])
    (hsd : lineOk ((oee_df.filter fun row => row.date == target).filter
            fun row => row.line == "Line " ++ toString i) = false) :
    getLoc (process_oee_data oee_df target seed_rows).1 (4 * i - 3) .actual
      = "Shutdown" ∧
    getLoc (process_oee_data oee_df target seed_rows).1 (4 * i - 2) .actual
      = "Shutdown" ∧
    getLoc (process_oee_data oee_df target seed_rows).1 (4 * i - 1) .actual
      = "Shutdown" ∧
    getLoc (process_oee_data oee_df target seed_rows).1 (4 * i) .actual
      = "Shutdown" ∧
    getLoc (process_oee_data oee_df target seed_rows).1 (4 * i - 3) .remark
      = "Line was Shutdown for the day." ∧
    getLoc (process_oee_data oee_df target seed_rows).1 (4 * i - 2) .remark
      = "" ∧
    getLoc (process_oee_data oee_df target seed_rows).1 (4 * i - 1) .remark
      = "" ∧
    getLoc (process_oee_data oee_df target seed_rows).1 (4 * i) .remark
      = "" := by
  have hres : (process_oee_data oee_df target seed_rows).1
      = oeeLine (oee_df.filter fun row => row.date == target) 3
          (oeeLine (oee_df.filter fun row => row.date == target) 2
            (oeeLine (oee_df.filter fun row => row.date == target) 1
              seed_rows)) := by
    rw [process_oee_data]
    rw [if_neg (by simpa [List.isEmpty_iff] using hne)]
  rw [hres]
  interval_cases i
  · have hs := getLoc_oeeLine_shutdown
      (oee_df.filter fun row => row.date == target) 1 seed_rows
      (by decide) hsd (by decide) (by decide) (by decide) (by decide)
    refine ⟨?_, ?_, ?_, ?_, ?_, ?_, ?_, ?_⟩ <;>
      rw [getLoc_oeeLine_ne _ 3 _ _ _ (by decide) (by decide) (by decide)
          (by decide),
        getLoc_oeeLine_ne _ 2 _ _ _ (by decide) (by decide) (by decide)
          (by decide)]
    · exact hs.1
    · exact hs.2.1
    · exact hs.2.2.1
    · exact hs.2.2.2.1
    · exact hs.2.2.2.2.1
    · rw [hs.2.2.2.2.2.1]; decide
    · rw [hs.2.2.2.2.2.2.1]; decide
    · rw [hs.2.2.2.2.2.2.2]; decide
  · have hs := getLoc_oeeLine_shutdown
      (oee_df.filter fun row => row.date == target) 2
      (oeeLine (oee_df.filter fun row => row.date == target) 1 seed_rows)
      (by decide) hsd
      (by rw [accKeys_oeeLine]; decide) (by rw [accKeys_oeeLine]; decide)
      (by rw [accKeys_oeeLine]; decide) (by rw [accKeys_oeeLine]; decide)
    refine ⟨?_, ?_, ?_, ?_, ?_, ?_, ?_, ?_⟩ <;>
      rw [getLoc_oeeLine_ne _ 3 _ _ _ (by decide) (by decide) (by decide)
          (by decide)]
    · exact hs.1
    · exact hs.2.1
    · exact hs.2.2.1
    · exact hs.2.2.2.1
    · exact hs.2.2.2.2.1
    · rw [hs.2.2.2.2.2.1,
        getLoc_oeeLine_ne _ 1 _ _ _ (by decide) (by decide) (by decide)
          (by decide)]
      decide
    · rw [hs.2.2.2.2.2.2.1,
        getLoc_oeeLine_ne _ 1 _ _ _ (by decide) (by decide) (by decide)
          (by decide)]
      decide
    · rw [hs.2.2.2.2.2.2.2,
        getLoc_oeeLine_ne _ 1 _ _ _ (by decide) (by decide) (by decide)
          (by decide)]
      decide
  · have hs := getLoc_oeeLine_shutdown
      (oee_df.filter fun row => row.date == target) 3
      (oeeLine (oee_df.filter fun row => row.date == target) 2
        (oeeLine (oee_df.filter fun row => row.date == target) 1 seed_rows))
      (by decide) hsd
      (by rw [accKeys_oeeLine, accKeys_oeeLine]; decide)
      (by rw [accKeys_oeeLine, accKeys_oeeLine]; decide)
      (by rw [accKeys_oeeLine, accKeys_oeeLine]; decide)
      (by rw [accKeys_oeeLine, accKeys_oeeLine]; decide)
    refine ⟨hs.1, hs.2.1, hs.2.2.1, hs.2.2.2.1, hs.2.2.2.2.1, ?_, ?_, ?_⟩
    · rw [hs.2.2.2.2.2.1,
        getLoc_oeeLine_ne _ 2 _ _ _ (by decide) (by decide) (by decide)
          (by decide),
        getLoc_oeeLine_ne _ 1 _ _ _ (by decide) (by decide) (by decide)
          (by decide)]
      decide
    · rw [hs.2.2.2.2.2.2.1,
        getLoc_oeeLine_ne _ 2 _ _ _ (by decide) (by decide) (by decide)
          (by decide),
        getLoc_oeeLine_ne _ 1 _ _ _ (by decide) (by decide) (by decide)
          (by decide)]
      decide
    · rw [hs.2.2.2.2.2.2.2,
        getLoc_oeeLine_ne _ 2 _ _ _ (by decide) (by decide) (by decide)
          (by decide),
        getLoc_oeeLine_ne _ 1 _ _ _ (by decide) (by decide) (by decide)
          (by decide)]
      decide

/-- Witness for C4: in `oeeW`, day 100 matches and Line 1 has OEE 0, so
serials 1–4 all read `Shutdown`, serial 1 carries the shutdown remark, and
the remarks of serials 2–4 stay empty. -/
theorem C4_shutdown_asymmetry_witness :
    (1 ≤ 1 ∧ 1 ≤ 3) ∧
    (oeeW.filter fun row => row.date == (⟨100, 0⟩ : DT)) ≠ [] ∧
    lineOk ((oeeW.filter fun row => row.date == (⟨100, 0⟩ : DT)).filter
      fun row => row.line == "Line " ++ toString 1) = false ∧
    (getLoc (process_oee_data oeeW ⟨100, 0⟩ seed_rows).1 (4 * 1 - 3) .actual
      = "Shutdown" ∧
     getLoc (process_oee_data oeeW ⟨100, 0⟩ seed_rows).1 (4 * 1 - 2) .actual
      = "Shutdown" ∧
     getLoc (process_oee_data oeeW ⟨100, 0⟩ seed_rows).1 (4 * 1 - 1) .actual
      = "Shutdown" ∧
     getLoc (process_oee_data oeeW ⟨100, 0⟩ seed_rows).1 (4 * 1) .actual
      = "Shutdown" ∧
     getLoc (process_oee_data oeeW ⟨100, 0⟩ seed_rows).1 (4 * 1 - 3) .remark
      = "Line was Shutdown for the day." ∧
     getLoc (process_oee_data oeeW ⟨100, 0⟩ seed_rows).1 (4 * 1 - 2) .remark
      = "" ∧
     getLoc (process_oee_data oeeW ⟨100, 0⟩ seed_rows).1 (4 * 1 - 1) .remark
      = "" ∧
     getLoc (process_oee_data oeeW ⟨100, 0⟩ seed_rows).1 (4 * 1) .remark
      = "") :=
  ⟨by decide, by decide, by decide,
    C4_shutdown_asymmetry oeeW ⟨100, 0⟩ 1 (by decide) (by decide)
      (by decide) (by decide)⟩

/-- Counterexample to C6: in `gInvCrash` the anchor sits in the frame's last
column with a non-empty particulars cell below the scan, so the claimed walk
would emit a row — but the unguarded read at `col+1` (line 135) raises an
uncaught `IndexError`, the extractor emits nothing, and the file's
processing aborts. -/
theorem C6_counterexample :
    findCellRM gInvCrash (fun cl => containsKw (cellStr cl) "xnbr latex")
      = some (0, 0) ∧
    isStopB (cellAtD gInvCrash 0 0) = false ∧
    process_inventory (some gInvCrash) seed_rows
      = Except.error
        "IndexError: single positional indexer is out-of-bounds" := by
  refine ⟨by decide, by decide, rfl⟩

/-- Claim C6 amended: whenever the walk from the `xnbr latex` anchor returns
normally (its positional reads stay inside the frame and the actual-value
cells format as numbers), the extractor appends exactly the walked rows with
consecutive serial numbers 19, 20, ... and no gaps; no emitted row has an
empty particulars cell, and the walk ends either at the bottom of the grid
or at a stopping (empty/missing) cell, which is not emitted.  A read or
format failure inside the walk raises uncaught and nothing is emitted. -/
theorem C6_inventory_walk (g : Grid) (acc : Acc) (r c : Nat)
    (rows : List Row)
    (hf : findCellRM g (fun cl => containsKw (cellStr cl) "xnbr latex")
      = some (r, c))
    (hw : inv_walk g c r (g.length - r) 19 = Except.ok rows) :
    process_inventory (some g) acc = Except.ok (acc ++ rows, []) ∧
    rows.map Row.sno = List.range' 19 rows.length ∧
    ((List.range rows.length).all
      fun k => !(isStopB (cellAtD g (r + k) c))) = true ∧
    (rows.length = g.length - r ∨
      isStopB (cellAtD g (r + rows.length) c) = true) := by
  refine ⟨?_, inv_walk_snos g c (g.length - r) r 19 rows hw, ?_,
    inv_walk_end g c (g.length - r) r 19 rows hw⟩
  · simp [process_inventory, hf, hw]
  · rw [List.all_eq_true]
    intro k hk
    rw [inv_walk_no_stop g c (g.length - r) r 19 rows k hw
      (List.mem_range.mp hk)]
    rfl

/-- Witness for C6: in `gInv2` the anchor is at (1, 0), all reads stay in
bounds, and the walk emits exactly the two rows below it, serials 19 and 20,
stopping at the empty row 3 without emitting it. -/
theorem C6_inventory_walk_witness :
    findCellRM gInv2 (fun cl => containsKw (cellStr cl) "xnbr latex")
      = some (1, 0) ∧
    inv_walk gInv2 0 1 (gInv2.length - 1) 19 = Except.ok invRowsW ∧
    (process_inventory (some gInv2) [] = Except.ok ([] ++ invRowsW, []) ∧
    invRowsW.map Row.sno = List.range' 19 invRowsW.length ∧
    ((List.range invRowsW.length).all
      fun k => !(isStopB (cellAtD gInv2 (1 + k) 0))) = true ∧
    (invRowsW.length = gInv2.length - 1 ∨
      isStopB (cellAtD gInv2 (1 + invRowsW.length) 0) = true)) :=
  ⟨by decide, by with_unfolding_all rfl,
    C6_inventory_walk gInv2 [] 1 0 invRowsW (by decide)
      (by with_unfolding_all rfl)⟩

theorem inventory_rows_snos (p : Option Grid) :
    (inventory_rows p).map Row.sno
      = List.range' 19 (inventory_rows p).length := by
  cases p with
  | none => rfl
  | some g =>
    cases hf : findCellRM g (fun cl => containsKw (cellStr cl) "xnbr latex")
      with
    | none => simp [inventory_rows, hf]
    | some rc =>
      cases rc with
      | mk r c =>
        simp only [inventory_rows, hf]
        cases hw : inv_walk g c r (g.length - r) 19 with
        | error e => rfl
        | ok rows => exact inv_walk_snos g c (g.length - r) r 19 rows hw

theorem order_keys_facts (t : OrderTable) :
    (order_keys t).Nodup ∧ ∀ m ∈ order_keys t, 24 ≤ m := by
  unfold order_keys optKey
  cases resolveCol t "total payment receive" <;>
    cases resolveCol t "total dispatch price" <;>
    cases resolveCol t "advance payment" <;>
    dsimp only <;>
    exact ⟨by decide, by decide⟩

theorem keys_nodup_assemble (inv : List Row) (okeys : List Nat)
    (hn : inv.length ≤ 5)
    (hsnos : inv.map Row.sno = List.range' 19 inv.length)
    (hok : ∀ m ∈ okeys, 24 ≤ m) (hoknd : okeys.Nodup) :
    (accKeys seed_rows ++ inv.map Row.sno ++ okeys).Nodup := by
  have hseedlt : ∀ m ∈ accKeys seed_rows, m < 19 := by decide
  have hinvmem : ∀ m ∈ inv.map Row.sno, 19 ≤ m ∧ m < 19 + inv.length := by
    intro m hm
    rw [hsnos] at hm
    exact List.mem_range'_1.mp hm
  apply List.Nodup.append
  · apply List.Nodup.append
    · decide
    · rw [hsnos]
      exact List.nodup_range' _ _
    · intro m hm1 hm2
      have := hseedlt m hm1
      have := (hinvmem m hm2).1
      omega
  · exact hoknd
  · intro m hm1 hm2
    have h24 := hok m hm2
    rcases List.mem_append.mp hm1 with hm | hm
    · have := hseedlt m hm
      omega
    · have := (hinvmem m hm).2
      omega

/-- Claim C3 amended: `serialNo` is unique across the assembled report
whenever the inventory walk emits at most five rows (serials up to 23);
with six or more inventory rows the dynamic serials reach 24 and collide
with the fixed order-financials ids 24/25/26. -/
theorem C3_unique_keys (oee_df : List OeeRow)
    (prod_df consump_df : Option Grid) (order_df : Option OrderTable)
    (target : DT) (hn : (inventory_rows prod_df).length ≤ 5) :
    ∀ rpt, create_report oee_df prod_df consump_df order_df target
        = Except.ok rpt →
      (rpt.map Row.sno).Nodup := by
  intro rpt hok
  simp only [create_report] at hok
  cases hinv : process_inventory prod_df
      ((process_consumption consump_df target
        ((process_production_target prod_df
          (process_abnormalities
            ((process_oee_data oee_df target seed_rows).1))).1)).1) with
  | error e => rw [hinv] at hok; dsimp only at hok; cases hok
  | ok p5 =>
    cases p5 with
    | mk a5 w5 =>
      rw [hinv] at hok
      dsimp only at hok
      have h5 : accKeys a5
          = accKeys seed_rows ++ (inventory_rows prod_df).map Row.sno := by
        have ha := process_inventory_ok prod_df _ a5 w5 hinv
        rw [ha, accKeys_append, accKeys_process_consumption,
          accKeys_process_production_target, accKeys_process_abnormalities,
          accKeys_process_oee_data]
        rfl
      cases horder : process_order_details order_df a5 with
      | error e => rw [horder] at hok; dsimp only at hok; cases hok
      | ok p6 =>
        cases p6 with
        | mk a6 w =>
          rw [horder] at hok
          dsimp only at hok
          cases hok
          have hperm : ((sortBySno a6).map Row.sno).Perm (a6.map Row.sno) :=
            (sortBySno_perm a6).map Row.sno
          rw [List.Perm.nodup_iff hperm]
          cases order_df with
          | none =>
            rw [show process_order_details none a5
                = Except.ok (a5, [wOrderSheetMissing]) from rfl] at horder
            cases horder
            have hkeys : List.map Row.sno a5
                = accKeys seed_rows
                  ++ (inventory_rows prod_df).map Row.sno := h5
            rw [hkeys]
            have hnd := keys_nodup_assemble (inventory_rows prod_df) [] hn
              (inventory_rows_snos prod_df) (by intro m hm; cases hm)
              List.nodup_nil
            simpa using hnd
          | some t =>
            have h6 := (process_order_details_ok t a5 a6 w horder).2
            rw [h5] at h6
            have hkeys : List.map Row.sno a6
                = accKeys seed_rows ++ (inventory_rows prod_df).map Row.sno
                  ++ order_keys t := h6
            rw [hkeys]
            exact keys_nodup_assemble _ _ hn (inventory_rows_snos prod_df)
              (order_keys_facts t).2 (order_keys_facts t).1

/-- Witness for C3 amended: with no sheets at all the inventory walk emits
zero rows (≤ 5), and the assembled report `rptW` has pairwise distinct
serials. -/
theorem C3_unique_keys_witness :
    (inventory_rows none).length ≤ 5 ∧ (rptW.map Row.sno).Nodup :=
  ⟨by decide, C3_unique_keys [] none none none ⟨0, 0⟩ (by decide) rptW rfl⟩

/-- Counterexample to C3: with six inventory rows (serials 19–24) and a
resolvable order column (fixed serial 24), the assembled report carries the
serial 24 twice — `serialNo` is not unique for every input. -/
theorem C3_counterexample :
    (create_report [] (some gInv6) none (some otOne) ⟨0, 0⟩).map
        (fun rows => decide (rows.map Row.sno).Nodup) = Except.ok false ∧
    (create_report [] (some gInv6) none (some otOne) ⟨0, 0⟩).map
        (fun rows => rows.map Row.sno)
      = Except.ok
        [1, 2, 3, 4, 5, 6, 7, 8, 9, 10, 11, 12, 13, 14, 15, 17, 18,
         19, 20, 21, 22, 23, 24, 24] := by
  exact ⟨rfl, rfl⟩

end Koove
